import Mathlib

/-!
Verification of the usage-retention statistics engine
(userapi/storage/postgres/stats_table.go).

The Go file consists of SQL statements plus Go glue.  We embed both layers:

* timestamps are `Int` milliseconds since the Unix epoch (the Go code passes
  `gomatrixserverlib.AsTimestamp` values, which are ms);  calendar arithmetic
  such as `AddDate(0, 0, -30)` is modelled as subtraction of 30 fixed-length
  days, and the several `time.Now()` calls inside one function are modelled
  as a single `now` parameter;
* SQL tables are lists of rows; `GROUP BY` is modelled with `List.dedup`
  over the group keys; the (unspecified) order in which the outer queries
  emit their platform rows is fixed to `tagOrder`;
* Go maps with string keys are association lists (`GoMap`) with
  assignment/lookup functions mirroring Go map semantics (a read of a
  missing key yields the zero value); a `nil` Go map is `Option.none` where
  the nil / non-nil distinction matters;
* fallible queries are driven by an oracle: scalar queries either succeed
  or fail, while map-valued helpers have the two failure shapes of the Go
  code — a query or scan error returns the nil map, a rows-iteration error
  returns the (non-nil, possibly partially filled) map built so far.
-/

namespace DendriteStats

/-- The platform tags produced by the two SQL CASE classifiers. -/
inductive PlatformTag
  | android
  | ios
  | electron
  | web
  | unknown
deriving DecidableEq

/-- The string a tag denotes in the SQL output rows. -/
def tagStr : PlatformTag → String
  | .android => "android"
  | .ios => "ios"
  | .electron => "electron"
  | .web => "web"
  | .unknown => "unknown"

/-- `charsLeading p s` is true when the list `p` is an initial segment of `s`. -/
def charsLeading : List Char → List Char → Bool
  | [], _ => true
  | _ :: _, [] => false
  | p :: ps, c :: cs => p == c && charsLeading ps cs

/-- `charsWithin p s` is true when `p` occurs contiguously inside `s`. -/
def charsWithin : List Char → List Char → Bool
  | p, [] => charsLeading p []
  | p, s@(_ :: cs) => charsLeading p s || charsWithin p cs

/-- SQL `s LIKE '%pat%'` (case sensitive, no wildcards inside `pat`). -/
def likeSub (s pat : String) : Bool :=
  charsWithin pat.toList s.toList

/-- SQL `LOWER`, restricted to ASCII as used by the user-agent patterns. -/
def lowerStr (s : String) : String :=
  ⟨s.toList.map Char.toLower⟩

/-- The CASE expression of `countR30UsersSQL`: case-sensitive LIKE patterns
Android / iOS / Electron / Mozilla / Gecko, first match wins. -/
def classifyLegacy (ua : String) : PlatformTag :=
  if likeSub ua "Android" then .android
  else if likeSub ua "iOS" then .ios
  else if likeSub ua "Electron" then .electron
  else if likeSub ua "Mozilla" then .web
  else if likeSub ua "Gecko" then .web
  else .unknown

/-- The CASE expression of `countR30UsersV2SQL`: all comparisons are against
`LOWER(user_agent)` with lowercase patterns. -/
def classifyV2 (ua : String) : PlatformTag :=
  let l := lowerStr ua
  if likeSub l "riot" || likeSub l "element" then
    if likeSub l "electron" then .electron
    else if likeSub l "android" then .android
    else if likeSub l "ios" then .ios
    else .unknown
  else if likeSub l "mozilla" || likeSub l "gecko" then .web
  else .unknown

/-- Milliseconds per day; `time.Hour * 24` in the Go code. -/
def msPerDay : Int := 86400000

/-- Go `time.Truncate(time.Hour * 24)` on an epoch-ms value.  All times in
scope are nonnegative, where truncation towards zero and floor agree. -/
def truncDay (t : Int) : Int :=
  (t / msPerDay) * msPerDay

/-- A row of `account_accounts` (the columns this file reads). -/
structure Account where
  localpart : String
  createdTs : Int
  accountType : Int
deriving DecidableEq

/-- A row of `device_devices` (the columns this file reads). -/
structure Device where
  localpart : String
  deviceId : String
  lastSeenTs : Int
  userAgent : String
deriving DecidableEq

/-- A row of `user_daily_visits`. -/
structure Visit where
  localpart : String
  deviceId : String
  timestamp : Int
  userAgent : String
deriving DecidableEq

/-- The database state read by the statistics queries. -/
structure DB where
  accounts : List Account
  devices : List Device
  visits : List Visit

/-- A Go `map[string]int64` as an association list (keys unique by
construction of the operations below). -/
abbrev GoMap := List (String × Nat)

/-- Go map read: missing keys give the zero value. -/
def mapGet (m : GoMap) (k : String) : Nat :=
  match m.find? (fun p => decide (p.1 = k)) with
  | some p => p.2
  | none => 0

/-- Whether the key is present. -/
def mapHasKey (m : GoMap) (k : String) : Bool :=
  m.any (fun p => decide (p.1 = k))

/-- Go map assignment: overwrite the entry for `k` when present, otherwise
add a new one (Go maps are unordered; the position is representation only). -/
def mapSet : GoMap → String → Nat → GoMap
  | [], k, v => [(k, v)]
  | p :: m, k, v => if p.1 = k then (k, v) :: m else p :: mapSet m k v

/-- The keys of the map, in representation order. -/
def mapKeys (m : GoMap) : List String :=
  m.map Prod.fst

/-- The row-scanning loop shared by `r30Users` and `r30UsersV2`:
`result["all"] += count; if platform == "unknown" { continue };
result[platform] = count`. -/
def foldRows : GoMap → List (PlatformTag × Nat) → GoMap
  | m, [] => m
  | m, (t, c) :: rest =>
      let m1 := mapSet m "all" (mapGet m "all" + c)
      foldRows (if t = PlatformTag.unknown then m1 else mapSet m1 (tagStr t) c) rest

/-- The order in which the outer `GROUP BY platform` queries are modelled to
emit their rows (SQL leaves this order unspecified). -/
def tagOrder : List PlatformTag :=
  [.android, .ios, .electron, .web, .unknown]

/-! ### countR30UsersSQL (legacy R30) -/

/-- The distinct `(localpart, platform, created_ts)` groups of the inner
query of `countR30UsersSQL`: accounts joined with devices on localpart,
`account_type <> 4`, `created_ts < $1`, `last_seen_ts > $1`,
`last_seen_ts - created_ts > $2`, platform from the legacy CASE. -/
def r30Keys (db : DB) (lsa diff : Int) : List (String × PlatformTag × Int) :=
  (db.accounts.flatMap (fun a => db.devices.filterMap (fun d =>
    if d.localpart = a.localpart ∧ a.accountType ≠ 4 ∧ a.createdTs < lsa ∧
        lsa < d.lastSeenTs ∧ diff < d.lastSeenTs - a.createdTs then
      some (a.localpart, classifyLegacy d.userAgent, a.createdTs)
    else none))).dedup

/-- The outer `GROUP BY platform` count of `countR30UsersSQL`. -/
def r30Count (db : DB) (lsa diff : Int) (t : PlatformTag) : Nat :=
  (r30Keys db lsa diff).countP (fun k => decide (k.2.1 = t))

/-- The rows returned by `countR30UsersSQL` (tags whose group count is
nonzero, in `tagOrder`). -/
def legacyRows (db : DB) (lsa diff : Int) : List (PlatformTag × Nat) :=
  (tagOrder.filter (fun t => decide (r30Count db lsa diff t ≠ 0))).map
    (fun t => (t, r30Count db lsa diff t))

/-- `r30Users`: runs `countR30UsersSQL` with `$1 = now - 30d` (the
`lastSeenAfter` timestamp) and `$2 = 30d` in milliseconds, then scans the
rows into a fresh empty map. -/
def r30Users (db : DB) (now : Int) : GoMap :=
  foldRows [] (legacyRows db (now - 30 * msPerDay) (30 * msPerDay))

/-! ### countR30UsersV2SQL -/

/-- The `user_daily_visits` rows inside the window
`timestamp > $1 AND timestamp < $2`. -/
def v2WindowVisits (db : DB) (lo hi : Int) : List Visit :=
  db.visits.filter (fun v => decide (lo < v.timestamp ∧ v.timestamp < hi))

/-- The distinct `(localpart, client_type)` groups of the inner query. -/
def v2GroupsAll (db : DB) (lo hi : Int) : List (String × PlatformTag) :=
  ((v2WindowVisits db lo hi).map (fun v => (v.localpart, classifyV2 v.userAgent))).dedup

/-- The timestamps of the group of `k`. -/
def v2TsOf (db : DB) (lo hi : Int) (k : String × PlatformTag) : List Int :=
  ((v2WindowVisits db lo hi).filter (fun v =>
    decide (v.localpart = k.1 ∧ classifyV2 v.userAgent = k.2))).map Visit.timestamp

/-- The HAVING clause: `max(timestamp) - min(timestamp) > thr`. -/
def spanGT (ts : List Int) (thr : Int) : Bool :=
  match ts with
  | [] => false
  | t :: r => decide (r.foldl max t - r.foldl min t > thr)

/-- The groups surviving the HAVING clause. -/
def v2Groups (db : DB) (lo hi thr : Int) : List (String × PlatformTag) :=
  (v2GroupsAll db lo hi).filter (fun k => spanGT (v2TsOf db lo hi k) thr)

/-- The outer `GROUP BY client_type` count. -/
def v2Count (db : DB) (lo hi thr : Int) (t : PlatformTag) : Nat :=
  (v2Groups db lo hi thr).countP (fun k => decide (k.2 = t))

/-- The rows returned by `countR30UsersV2SQL`. -/
def v2Rows (db : DB) (lo hi thr : Int) : List (PlatformTag × Nat) :=
  (tagOrder.filter (fun t => decide (v2Count db lo hi thr t ≠ 0))).map
    (fun t => (t, v2Count db lo hi thr t))

/-- The literal seed map built by `r30UsersV2` (and by `UserStatistics`). -/
def seed5 : GoMap :=
  [("ios", 0), ("android", 0), ("web", 0), ("electron", 0), ("all", 0)]

/-- `r30UsersV2`: runs `countR30UsersV2SQL` with `$1 = now - 60d`,
`$2 = now + 1d` and, as in the Go source, `$3 = now - 30d` — an absolute
epoch timestamp, not a 30-day duration — then scans the rows into the
pre-seeded five-key map. -/
def r30UsersV2 (db : DB) (now : Int) : GoMap :=
  foldRows seed5 (v2Rows db (now - 60 * msPerDay) (now + msPerDay) (now - 30 * msPerDay))

/-! ### updateUserDailyVisitsSQL and updateUserDailyVisits -/

/-- The uniqueness key of the `localpart_device_timestamp_idx` index. -/
def visitKey (v : Visit) : String × String × Int :=
  (v.localpart, v.deviceId, v.timestamp)

/-- The user agents of the `device_devices` rows with the given key
(the `GROUP BY u.localpart, u.device_id` group). -/
def keyAgents (devices : List Device) (lp did : String) : List String :=
  (devices.filter (fun u => decide (u.localpart = lp ∧ u.deviceId = did))).map
    Device.userAgent

/-- SQL `MAX` over the user agents of a group (the group is nonempty
whenever this is used). -/
def maxAgent : List String → String
  | [] => ""
  | s :: r => r.foldl max s

/-- The rows produced by the SELECT of `updateUserDailyVisitsSQL`: one row
per distinct `(localpart, device_id)` device key whose owner has some device
with `$2 <= last_seen_ts < $3` and an account of type 1 or 3; the row
carries `$1` as timestamp and the MAX user agent of the group. -/
def dailyVisitCandidates (db : DB) (ts lo hi : Int) : List Visit :=
  (((db.devices.map (fun u => (u.localpart, u.deviceId))).dedup).filter (fun k =>
    db.devices.any (fun d =>
      decide (d.localpart = k.1 ∧ lo ≤ d.lastSeenTs ∧ d.lastSeenTs < hi)) &&
    db.accounts.any (fun a =>
      decide (a.localpart = k.1 ∧ (a.accountType = 1 ∨ a.accountType = 3))))).map
    (fun k => ⟨k.1, k.2, ts, maxAgent (keyAgents db.devices k.1 k.2)⟩)

/-- `INSERT ... ON CONFLICT (localpart, device_id, timestamp) DO NOTHING`:
each candidate row is appended unless its key is already present. -/
def insertVisits : List Visit → List Visit → List Visit
  | table, [] => table
  | table, c :: rest =>
      insertVisits
        (if table.any (fun v => decide (visitKey v = visitKey c)) then table
         else table ++ [c])
        rest

/-- First matching row for a visit key. -/
def findVisit (table : List Visit) (k : String × String × Int) : Option Visit :=
  table.find? (fun v => decide (visitKey v = k))

/-- `updateUserDailyVisits`: picks the day stamp (previous day when the
current day start lies strictly after the watermark), runs the insert over
the window `[lastUpdate, now)`, and advances the watermark only when the
statement succeeded.  `execOk` models whether the SQL execution succeeds;
the result is `((newWatermark, newVisitTable), errorOccurred)`. -/
def updateUserDailyVisits (db : DB) (lastUpdate now : Int) (execOk : Bool) :
    (Int × List Visit) × Bool :=
  let todayStart := truncDay now
  let stamp := if lastUpdate < todayStart then todayStart - msPerDay else todayStart
  if execOk then
    ((now, insertVisits db.visits (dailyVisitCandidates db stamp lastUpdate now)), false)
  else
    ((lastUpdate, db.visits), true)

/-! ### UserStatistics -/

/-- Outcome of a map-valued sub-query helper (`r30Users`, `r30UsersV2`,
`registeredUserByType`).  The Go helpers have two failure shapes: a
`QueryContext` or `Scan` error makes them return `(nil, err)` (`failNil`),
while a non-nil `rows.Err()` after the scan loop makes them return the map
built so far — non-nil and possibly partially filled; for `r30UsersV2` it
contains at least the five seeded keys — alongside the error (`failRows`). -/
inductive MapQResult where
  | ok (m : GoMap)
  | failNil (e : String)
  | failRows (m : GoMap) (e : String)

/-- Results of the eight sub-queries of `UserStatistics`, as delivered by
the database; `Except.error` models a failed scalar query, `MapQResult`
the outcomes of the map-valued helpers. -/
structure StatsOracle where
  allUsersQ : Except String Int
  dailyUsersQ : Except String Int
  monthlyUsersQ : Except String Int
  r30Q : MapQResult
  r30V2Q : MapQResult
  nonBridgedQ : Except String Int
  registeredQ : MapQResult
  versionQ : Except String String

/-- The `types.UserStatistics` fields written by this file.  Map fields are
`Option GoMap`, with `none` standing for a nil Go map. -/
structure UserStatsRes where
  allUsers : Int
  dailyUsers : Int
  monthlyUsers : Int
  r30Users : Option GoMap
  r30UsersV2 : Option GoMap
  nonBridgedUsers : Int
  registeredUsersByType : Option GoMap
deriving DecidableEq

/-- `types.DatabaseEngine`. -/
structure DatabaseEngine where
  engine : String
  version : String
deriving DecidableEq

/-- Names of the eight sequential sub-queries. -/
inductive SubQ
  | allUsersQ
  | dailyUsersQ
  | monthlyUsersQ
  | r30Q
  | r30V2Q
  | nonBridgedQ
  | registeredQ
  | versionQ
deriving DecidableEq

/-- The order in which `UserStatistics` issues its sub-queries. -/
def subQOrder : List SubQ :=
  [.allUsersQ, .dailyUsersQ, .monthlyUsersQ, .r30Q, .r30V2Q, .nonBridgedQ,
   .registeredQ, .versionQ]

/-- The initial `stats` literal of `UserStatistics`. -/
def initStats : UserStatsRes :=
  { allUsers := 0, dailyUsers := 0, monthlyUsers := 0, r30Users := some [],
    r30UsersV2 := some seed5, nonBridgedUsers := 0,
    registeredUsersByType := some [] }

/-- The initial `dbEngine` literal of `UserStatistics`. -/
def initEngine : DatabaseEngine :=
  ⟨"Postgres", "unknown"⟩

/-- `UserStatistics`: issues the sub-queries in `subQOrder`, stopping at the
first failure.  A failed integer query leaves its field at the zero value
(`Scan` did not write it); a map query stores whatever map its helper
returned alongside the error — the nil map for a query/scan error, the
non-nil partial map for a rows-iteration error; a failed version query
leaves the version string at "unknown".  Returns the stats, the engine
descriptor, the error (if any) and the list of sub-queries executed. -/
def userStatistics (o : StatsOracle) :
    UserStatsRes × DatabaseEngine × Option String × List SubQ :=
  match o.allUsersQ with
  | .error e => (initStats, initEngine, some e, [.allUsersQ])
  | .ok v1 =>
  match o.dailyUsersQ with
  | .error e =>
      ({ initStats with
          allUsers := v1 }, initEngine, some e,
       [.allUsersQ, .dailyUsersQ])
  | .ok v2 =>
  match o.monthlyUsersQ with
  | .error e =>
      ({ initStats with
          allUsers := v1
          dailyUsers := v2 }, initEngine, some e,
       [.allUsersQ, .dailyUsersQ, .monthlyUsersQ])
  | .ok v3 =>
  match o.r30Q with
  | .failNil e =>
      ({ initStats with
          allUsers := v1
          dailyUsers := v2
          monthlyUsers := v3
          r30Users := none }, initEngine, some e,
       [.allUsersQ, .dailyUsersQ, .monthlyUsersQ, .r30Q])
  | .failRows m e =>
      ({ initStats with
          allUsers := v1
          dailyUsers := v2
          monthlyUsers := v3
          r30Users := some m }, initEngine, some e,
       [.allUsersQ, .dailyUsersQ, .monthlyUsersQ, .r30Q])
  | .ok m4 =>
  match o.r30V2Q with
  | .failNil e =>
      ({ initStats with
          allUsers := v1
          dailyUsers := v2
          monthlyUsers := v3
          r30Users := some m4
          r30UsersV2 := none }, initEngine, some e,
       [.allUsersQ, .dailyUsersQ, .monthlyUsersQ, .r30Q, .r30V2Q])
  | .failRows m e =>
      ({ initStats with
          allUsers := v1
          dailyUsers := v2
          monthlyUsers := v3
          r30Users := some m4
          r30UsersV2 := some m }, initEngine, some e,
       [.allUsersQ, .dailyUsersQ, .monthlyUsersQ, .r30Q, .r30V2Q])
  | .ok m5 =>
  match o.nonBridgedQ with
  | .error e =>
      ({ initStats with
          allUsers := v1
          dailyUsers := v2
          monthlyUsers := v3
          r30Users := some m4
          r30UsersV2 := some m5 }, initEngine, some e,
       [.allUsersQ, .dailyUsersQ, .monthlyUsersQ, .r30Q, .r30V2Q, .nonBridgedQ])
  | .ok v6 =>
  match o.registeredQ with
  | .failNil e =>
      ({ allUsers := v1
         dailyUsers := v2
         monthlyUsers := v3
         r30Users := some m4
         r30UsersV2 := some m5
         nonBridgedUsers := v6
         registeredUsersByType := none }, initEngine, some e,
       [.allUsersQ, .dailyUsersQ, .monthlyUsersQ, .r30Q, .r30V2Q, .nonBridgedQ,
        .registeredQ])
  | .failRows m e =>
      ({ allUsers := v1
         dailyUsers := v2
         monthlyUsers := v3
         r30Users := some m4
         r30UsersV2 := some m5
         nonBridgedUsers := v6
         registeredUsersByType := some m }, initEngine, some e,
       [.allUsersQ, .dailyUsersQ, .monthlyUsersQ, .r30Q, .r30V2Q, .nonBridgedQ,
        .registeredQ])
  | .ok m7 =>
  match o.versionQ with
  | .error e =>
      ({ allUsers := v1
         dailyUsers := v2
         monthlyUsers := v3
         r30Users := some m4
         r30UsersV2 := some m5
         nonBridgedUsers := v6
         registeredUsersByType := some m7 }, initEngine, some e, subQOrder)
  | .ok v8 =>
      ({ allUsers := v1
         dailyUsers := v2
         monthlyUsers := v3
         r30Users := some m4
         r30UsersV2 := some m5
         nonBridgedUsers := v6
         registeredUsersByType := some m7 }, ⟨"Postgres", v8⟩, none, subQOrder)

/-! ### Concrete inputs used by counterexamples and witnesses -/

/-- A concrete "now": 2023-11-14 22:13:20 UTC in epoch milliseconds. -/
def exNow : Int := 1700000000000

/-- Daily-visit facts of one user, both tagged web by the V2 classifier, at
`now - 45d` and `now - 10d` (gap 35 days). -/
def exDbV2 : DB :=
  ⟨[], [],
   [⟨"alice", "d1", exNow - 45 * msPerDay, "Mozilla"⟩,
    ⟨"alice", "d2", exNow - 10 * msPerDay, "Mozilla"⟩]⟩

/-- One account with two qualifying devices classifying to different
platforms (Android and web). -/
def cDb : DB :=
  ⟨[⟨"bob", exNow - 40 * msPerDay, 1⟩],
   [⟨"bob", "d1", exNow - 5 * msPerDay, "Android"⟩,
    ⟨"bob", "d2", exNow - 4 * msPerDay, "Mozilla"⟩], []⟩

/-- A database for the materialization witnesses: one type-1 account with
one device active inside the window. -/
def mDb : DB :=
  ⟨[⟨"carol", 0, 1⟩],
   [⟨"carol", "dev", 5 * msPerDay + 200, "agent"⟩], []⟩

/-- Watermark and clock for the materialization witnesses: the current day
start (day 6) lies strictly after the watermark (inside day 5). -/
def mLastUpdate : Int := 5 * msPerDay + 100

/-- The clock of the witness run, shortly after the day-6 boundary. -/
def mNow : Int := 6 * msPerDay + 50

/-- An oracle in which every sub-query succeeds. -/
def oAllOk : StatsOracle :=
  ⟨.ok 11, .ok 4, .ok 9, .ok [("all", 2)], .ok seed5, .ok 10,
   .ok [("native", 1)], .ok "15.1"⟩

/-- An oracle whose R30V2 sub-query fails with a query/scan error (the
nil-returning failure shape) after the first four sub-queries succeed. -/
def oV2Fails : StatsOracle :=
  ⟨.ok 11, .ok 4, .ok 9, .ok [("all", 2)], .failNil "boom", .ok 10,
   .ok [("native", 1)], .ok "15.1"⟩

/-- Spec-side contiguous-substring containment, to compare the boolean
`likeSub` of the embedding against. -/
def csContains (s pat : String) : Prop :=
  ∃ l r, s.toList = l ++ pat.toList ++ r

/-- The single daily-visit fact present in the materialization witnesses. -/
def mVisit : Visit :=
  ⟨"carol", "dev", 5 * msPerDay, "agent"⟩

/-- The candidate rows of the materialization witness run. -/
def mCands : List Visit :=
  dailyVisitCandidates mDb (5 * msPerDay) mLastUpdate mNow

/-! ## Helper lemmas -/

theorem charsLeading_iff (p : List Char) : ∀ s : List Char,
    charsLeading p s = true ↔ ∃ r, s = p ++ r := by
  induction p with
  | nil => intro s; simp [charsLeading]
  | cons a ps ih =>
    intro s
    cases s with
    | nil => simp [charsLeading]
    | cons c cs =>
      simp only [charsLeading, Bool.and_eq_true, beq_iff_eq, ih, List.cons_append,
        List.cons.injEq]
      constructor
      · rintro ⟨rfl, r, rfl⟩
        exact ⟨r, rfl, rfl⟩
      · rintro ⟨r, rfl, rfl⟩
        exact ⟨rfl, r, rfl⟩

theorem charsWithin_iff (p : List Char) : ∀ s : List Char,
    charsWithin p s = true ↔ ∃ l r, s = l ++ p ++ r := by
  intro s
  induction s with
  | nil =>
    simp only [charsWithin, charsLeading_iff]
    constructor
    · rintro ⟨r, h⟩
      exact ⟨[], r, by simpa using h⟩
    · rintro ⟨l, r, h⟩
      refine ⟨l ++ r, ?_⟩
      rcases List.append_eq_nil.mp ((List.append_assoc l p r) ▸ h.symm) with ⟨h1, h2⟩
      rcases List.append_eq_nil.mp h2 with ⟨h3, h4⟩
      simp [h1, h3, h4]
  | cons c cs ih =>
    simp only [charsWithin, Bool.or_eq_true, charsLeading_iff, ih]
    constructor
    · rintro (⟨r, h⟩ | ⟨l, r, h⟩)
      · exact ⟨[], r, by simpa using h⟩
      · exact ⟨c :: l, r, by simp [h]⟩
    · rintro ⟨l, r, h⟩
      cases l with
      | nil => exact Or.inl ⟨r, by simpa using h⟩
      | cons x l2 =>
        rcases List.cons.injEq c cs x (l2 ++ p ++ r) ▸ h with ⟨rfl, h2⟩
        exact Or.inr ⟨l2, r, by simpa using h2⟩

theorem likeSub_iff (s pat : String) : likeSub s pat = true ↔ csContains s pat :=
  charsWithin_iff pat.toList s.toList

theorem likeSub_true_of (s pat : String) (h : csContains s pat) :
    likeSub s pat = true :=
  (likeSub_iff s pat).mpr h

theorem likeSub_false_of (s pat : String) (h : ¬ csContains s pat) :
    likeSub s pat = false := by
  cases c : likeSub s pat
  · rfl
  · exact absurd ((likeSub_iff s pat).mp c) h

theorem mapKeys_cons (p : String × Nat) (m : GoMap) :
    mapKeys (p :: m) = p.1 :: mapKeys m := rfl

theorem mapSet_cons_ne (p : String × Nat) (m : GoMap) (k : String) (v : Nat)
    (hp : ¬ p.1 = k) : mapSet (p :: m) k v = p :: mapSet m k v := by
  simp [mapSet, hp]

theorem mapGet_cons_ne (p : String × Nat) (m : GoMap) (k : String)
    (hp : ¬ p.1 = k) : mapGet (p :: m) k = mapGet m k := by
  simp [mapGet, List.find?, hp]

theorem mapGet_cons_eq (p : String × Nat) (m : GoMap) (k : String)
    (hp : p.1 = k) : mapGet (p :: m) k = p.2 := by
  simp [mapGet, List.find?, hp]

theorem mapGet_set_same (k : String) (v : Nat) : ∀ m : GoMap,
    mapGet (mapSet m k v) k = v := by
  intro m
  induction m with
  | nil => simp [mapSet, mapGet, List.find?]
  | cons p m ih =>
    by_cases hp : p.1 = k
    · simp [mapSet, hp, mapGet, List.find?]
    · rw [mapSet_cons_ne p m k v hp, mapGet_cons_ne p (mapSet m k v) k hp, ih]

theorem mapGet_set_other (k k2 : String) (v : Nat) (h : k2 ≠ k) : ∀ m : GoMap,
    mapGet (mapSet m k v) k2 = mapGet m k2 := by
  have hk : ¬ (k = k2) := fun hh => h hh.symm
  intro m
  induction m with
  | nil => simp [mapSet, mapGet, List.find?, hk]
  | cons p m ih =>
    by_cases hp : p.1 = k
    · have hp2 : ¬ p.1 = k2 := fun hh => hk (hp ▸ hh)
      rw [show mapSet (p :: m) k v = (k, v) :: m from by simp [mapSet, hp]]
      rw [mapGet_cons_ne (k, v) m k2 hk, mapGet_cons_ne p m k2 hp2]
    · rw [mapSet_cons_ne p m k v hp]
      by_cases hp2 : p.1 = k2
      · rw [mapGet_cons_eq p (mapSet m k v) k2 hp2, mapGet_cons_eq p m k2 hp2]
      · rw [mapGet_cons_ne p (mapSet m k v) k2 hp2, mapGet_cons_ne p m k2 hp2, ih]

theorem mapKeys_set_mem (k : String) (v : Nat) : ∀ m : GoMap,
    k ∈ mapKeys m → mapKeys (mapSet m k v) = mapKeys m := by
  intro m
  induction m with
  | nil => intro h; simp [mapKeys] at h
  | cons p m ih =>
    intro h
    by_cases hp : p.1 = k
    · rw [show mapSet (p :: m) k v = (k, v) :: m from by simp [mapSet, hp],
        mapKeys_cons, mapKeys_cons, hp]
    · have hm : k ∈ mapKeys m := by
        rcases List.mem_cons.mp (mapKeys_cons p m ▸ h) with h1 | h1
        · exact absurd h1.symm hp
        · exact h1
      rw [mapSet_cons_ne p m k v hp, mapKeys_cons, mapKeys_cons, ih hm]

theorem mapKeys_set_new (k : String) (v : Nat) : ∀ m : GoMap,
    k ∉ mapKeys m → mapKeys (mapSet m k v) = mapKeys m ++ [k] := by
  intro m
  induction m with
  | nil => intro _; simp [mapSet, mapKeys]
  | cons p m ih =>
    intro h
    have hp : ¬ p.1 = k := by
      intro hh
      exact h (by rw [mapKeys_cons, hh]; exact List.mem_cons_self k (mapKeys m))
    have hm : k ∉ mapKeys m := by
      intro hh
      exact h (by rw [mapKeys_cons]; exact List.mem_cons_of_mem p.1 hh)
    rw [mapSet_cons_ne p m k v hp, mapKeys_cons, mapKeys_cons, ih hm,
      List.cons_append]

theorem mapHasKey_iff (m : GoMap) (k : String) :
    mapHasKey m k = true ↔ k ∈ mapKeys m := by
  simp [mapHasKey, mapKeys, List.any_eq_true, List.mem_map]

theorem tagStr_inj {t t2 : PlatformTag} (h : tagStr t = tagStr t2) : t = t2 := by
  cases t <;> cases t2 <;> first
    | rfl
    | exact absurd h (by decide)

theorem tagStr_ne_all (t : PlatformTag) : tagStr t ≠ "all" := by
  cases t <;> decide

theorem mem_tagOrder (t : PlatformTag) : t ∈ tagOrder := by
  cases t <;> decide

theorem foldRows_all (rows : List (PlatformTag × Nat)) : ∀ m : GoMap,
    mapGet (foldRows m rows) "all" = mapGet m "all" + (rows.map Prod.snd).sum := by
  induction rows with
  | nil => intro m; simp [foldRows]
  | cons r rest ih =>
    obtain ⟨t, c⟩ := r
    intro m
    by_cases ht : t = PlatformTag.unknown
    · rw [show foldRows m ((t, c) :: rest) =
          foldRows (mapSet m "all" (mapGet m "all" + c)) rest from by
            simp [foldRows, ht]]
      rw [ih, mapGet_set_same]
      simp [Nat.add_assoc]
    · rw [show foldRows m ((t, c) :: rest) =
          foldRows (mapSet (mapSet m "all" (mapGet m "all" + c)) (tagStr t) c)
            rest from by simp [foldRows, ht]]
      rw [ih, mapGet_set_other (tagStr t) "all" c (fun hh => tagStr_ne_all t hh.symm),
        mapGet_set_same]
      simp [Nat.add_assoc]

theorem foldRows_get_of_not_mem (t : PlatformTag) :
    ∀ (rows : List (PlatformTag × Nat)), t ∉ rows.map Prod.fst → ∀ m : GoMap,
    mapGet (foldRows m rows) (tagStr t) = mapGet m (tagStr t) := by
  intro rows
  induction rows with
  | nil => intro _ m; simp [foldRows]
  | cons r rest ih =>
    obtain ⟨t2, c⟩ := r
    intro h m
    have ht2 : t2 ≠ t := by
      intro hh
      exact h (by simp [hh])
    have hrest : t ∉ rest.map Prod.fst := by
      intro hh
      exact h (by simp [hh])
    have hall : mapGet (mapSet m "all" (mapGet m "all" + c)) (tagStr t) =
        mapGet m (tagStr t) :=
      mapGet_set_other "all" (tagStr t) (mapGet m "all" + c) (tagStr_ne_all t) m
    by_cases h2 : t2 = PlatformTag.unknown
    · rw [show foldRows m ((t2, c) :: rest) =
          foldRows (mapSet m "all" (mapGet m "all" + c)) rest from by
            simp [foldRows, h2]]
      rw [ih hrest, hall]
    · rw [show foldRows m ((t2, c) :: rest) =
          foldRows (mapSet (mapSet m "all" (mapGet m "all" + c)) (tagStr t2) c)
            rest from by simp [foldRows, h2]]
      rw [ih hrest,
        mapGet_set_other (tagStr t2) (tagStr t) c (fun hh => ht2 (tagStr_inj hh).symm),
        hall]

theorem foldRows_get_of_mem (t : PlatformTag) (c : Nat)
    (ht : t ≠ PlatformTag.unknown) : ∀ (rows : List (PlatformTag × Nat)),
    (rows.map Prod.fst).Nodup → (t, c) ∈ rows → ∀ m : GoMap,
    mapGet (foldRows m rows) (tagStr t) = c := by
  intro rows
  induction rows with
  | nil => intro _ h; simp at h
  | cons r rest ih =>
    intro hnd hmem m
    have hnd2 : (rest.map Prod.fst).Nodup := (List.nodup_cons.mp (by simpa using hnd)).2
    rcases List.mem_cons.mp hmem with h1 | h1
    · subst h1
      have hrest : t ∉ rest.map Prod.fst := (List.nodup_cons.mp (by simpa using hnd)).1
      rw [show foldRows m ((t, c) :: rest) =
          foldRows (mapSet (mapSet m "all" (mapGet m "all" + c)) (tagStr t) c)
            rest from by simp [foldRows, ht]]
      rw [foldRows_get_of_not_mem t rest hrest, mapGet_set_same]
    · obtain ⟨t2, c2⟩ := r
      by_cases h2 : t2 = PlatformTag.unknown
      · rw [show foldRows m ((t2, c2) :: rest) =
            foldRows (mapSet m "all" (mapGet m "all" + c2)) rest from by
              simp [foldRows, h2]]
        exact ih hnd2 h1 _
      · rw [show foldRows m ((t2, c2) :: rest) =
            foldRows (mapSet (mapSet m "all" (mapGet m "all" + c2)) (tagStr t2) c2)
              rest from by simp [foldRows, h2]]
        exact ih hnd2 h1 _

theorem foldRows_keys_preserved : ∀ (rows : List (PlatformTag × Nat)) (m : GoMap),
    "all" ∈ mapKeys m →
    (∀ p ∈ rows, p.1 ≠ PlatformTag.unknown → tagStr p.1 ∈ mapKeys m) →
    mapKeys (foldRows m rows) = mapKeys m := by
  intro rows
  induction rows with
  | nil => intro m _ _; rfl
  | cons r rest ih =>
    obtain ⟨t, c⟩ := r
    intro m hall hrows
    have hk1 : mapKeys (mapSet m "all" (mapGet m "all" + c)) = mapKeys m :=
      mapKeys_set_mem "all" (mapGet m "all" + c) m hall
    by_cases h2 : t = PlatformTag.unknown
    · rw [show foldRows m ((t, c) :: rest) =
          foldRows (mapSet m "all" (mapGet m "all" + c)) rest from by
            simp [foldRows, h2]]
      rw [ih _ (hk1 ▸ hall) (fun p hp h3 => hk1 ▸ hrows p (List.mem_cons_of_mem _ hp) h3),
        hk1]
    · have htag : tagStr t ∈ mapKeys m :=
        hrows (t, c) (List.mem_cons_self _ _) h2
      have hk2 : mapKeys (mapSet (mapSet m "all" (mapGet m "all" + c)) (tagStr t) c) =
          mapKeys m := by
        rw [mapKeys_set_mem (tagStr t) c _ (hk1 ▸ htag), hk1]
      rw [show foldRows m ((t, c) :: rest) =
          foldRows (mapSet (mapSet m "all" (mapGet m "all" + c)) (tagStr t) c)
            rest from by simp [foldRows, h2]]
      rw [ih _ (hk2 ▸ hall) (fun p hp h3 => hk2 ▸ hrows p (List.mem_cons_of_mem _ hp) h3),
        hk2]

theorem foldRows_no_new_key (k : String) (hka : k ≠ "all") :
    ∀ (rows : List (PlatformTag × Nat)) (m : GoMap), k ∉ mapKeys m →
    (∀ p ∈ rows, p.1 ≠ PlatformTag.unknown → tagStr p.1 ≠ k) →
    k ∉ mapKeys (foldRows m rows) := by
  intro rows
  induction rows with
  | nil => intro m hm _; exact hm
  | cons r rest ih =>
    obtain ⟨t, c⟩ := r
    intro m hm hrows
    have hk1 : k ∉ mapKeys (mapSet m "all" (mapGet m "all" + c)) := by
      by_cases ha : "all" ∈ mapKeys m
      · rw [mapKeys_set_mem "all" _ m ha]; exact hm
      · rw [mapKeys_set_new "all" _ m ha]
        intro hh
        rcases List.mem_append.mp hh with h1 | h1
        · exact hm h1
        · exact hka (List.mem_singleton.mp h1)
    by_cases h2 : t = PlatformTag.unknown
    · rw [show foldRows m ((t, c) :: rest) =
          foldRows (mapSet m "all" (mapGet m "all" + c)) rest from by
            simp [foldRows, h2]]
      exact ih _ hk1 (fun p hp h3 => hrows p (List.mem_cons_of_mem _ hp) h3)
    · have htagk : tagStr t ≠ k := hrows (t, c) (List.mem_cons_self _ _) h2
      have hk2 : k ∉ mapKeys (mapSet (mapSet m "all" (mapGet m "all" + c))
          (tagStr t) c) := by
        by_cases hb : tagStr t ∈ mapKeys (mapSet m "all" (mapGet m "all" + c))
        · rw [mapKeys_set_mem (tagStr t) c _ hb]; exact hk1
        · rw [mapKeys_set_new (tagStr t) c _ hb]
          intro hh
          rcases List.mem_append.mp hh with h1 | h1
          · exact hk1 h1
          · exact htagk (List.mem_singleton.mp h1).symm
      rw [show foldRows m ((t, c) :: rest) =
          foldRows (mapSet (mapSet m "all" (mapGet m "all" + c)) (tagStr t) c)
            rest from by simp [foldRows, h2]]
      exact ih _ hk2 (fun p hp h3 => hrows p (List.mem_cons_of_mem _ hp) h3)

theorem sum_map_add {α : Type} (f g : α → Nat) : ∀ l : List α,
    (l.map (fun x => f x + g x)).sum = (l.map f).sum + (l.map g).sum := by
  intro l
  induction l with
  | nil => simp
  | cons a l ih => simp [ih]; omega

theorem countP_partition : ∀ l : List (String × PlatformTag × Int),
    (tagOrder.map (fun t => l.countP (fun k => decide (k.2.1 = t)))).sum = l.length := by
  intro l
  induction l with
  | nil => simp [tagOrder]
  | cons k l ih =>
    have hall : ∀ x : PlatformTag,
        (tagOrder.map (fun t => if decide (x = t) = true then 1 else 0)).sum = 1 := by
      intro x
      cases x <;> decide
    have hhot : (tagOrder.map (fun t => if decide (k.2.1 = t) = true then 1 else 0)).sum
        = 1 := hall k.2.1
    simp only [List.countP_cons]
    rw [sum_map_add (fun t => l.countP (fun k2 => decide (k2.2.1 = t)))
        (fun t => if decide (k.2.1 = t) = true then 1 else 0) tagOrder, ih, hhot]
    simp

/-- The rows emitted by the modelled `GROUP BY platform` queries, for a
given group-count function. -/
theorem rowsFst (f : PlatformTag → Nat) :
    (((tagOrder.filter (fun t => decide (f t ≠ 0))).map (fun t => (t, f t))).map
      Prod.fst) = tagOrder.filter (fun t => decide (f t ≠ 0)) := by
  rw [List.map_map,
    show (Prod.fst ∘ fun t : PlatformTag => (t, f t)) = id from rfl, List.map_id]

theorem rowsNodup (f : PlatformTag → Nat) :
    ((((tagOrder.filter (fun t => decide (f t ≠ 0))).map (fun t => (t, f t)))).map
      Prod.fst).Nodup := by
  rw [rowsFst f]
  exact (List.filter_sublist tagOrder).nodup (by decide)

theorem rowsMem (f : PlatformTag → Nat) (t : PlatformTag) (h : f t ≠ 0) :
    (t, f t) ∈ (tagOrder.filter (fun t => decide (f t ≠ 0))).map (fun t => (t, f t)) :=
  List.mem_map.mpr ⟨t, List.mem_filter.mpr ⟨mem_tagOrder t, by simpa using h⟩, rfl⟩

theorem rowsNotMemFst (f : PlatformTag → Nat) (t : PlatformTag) (h : f t = 0) :
    t ∉ (((tagOrder.filter (fun t => decide (f t ≠ 0))).map (fun t => (t, f t))).map
      Prod.fst) := by
  rw [rowsFst f]
  intro hh
  exact absurd h (by simpa using (List.mem_filter.mp hh).2)

theorem rowsFstMem (f : PlatformTag → Nat) (p : PlatformTag × Nat)
    (h : p ∈ (tagOrder.filter (fun t => decide (f t ≠ 0))).map (fun t => (t, f t))) :
    p.1 ∈ tagOrder := by
  rcases List.mem_map.mp h with ⟨t, ht, rfl⟩
  exact (List.mem_filter.mp ht).1

theorem rowsSumSnd (f : PlatformTag → Nat) :
    ((((tagOrder.filter (fun t => decide (f t ≠ 0))).map (fun t => (t, f t)))).map
      Prod.snd).sum = (tagOrder.map f).sum := by
  rw [List.map_map]
  have h2 : ∀ l : List PlatformTag,
      ((l.filter (fun t => decide (f t ≠ 0))).map (Prod.snd ∘ fun t => (t, f t))).sum
        = (l.map f).sum := by
    intro l
    induction l with
    | nil => rfl
    | cons a l ih =>
      rw [List.filter_cons]
      by_cases ha : f a = 0
      · rw [show (decide (f a ≠ 0)) = false from by simp [ha]]
        simp only [Bool.false_eq_true, if_false]
        rw [ih, List.map_cons, List.sum_cons, ha, Nat.zero_add]
      · rw [show (decide (f a ≠ 0)) = true from by simp [ha]]
        simp only [if_true]
        rw [List.map_cons, List.sum_cons, List.map_cons, List.sum_cons, ih]
        rfl
  exact h2 tagOrder

theorem r30_get_eq (db : DB) (now : Int) (t : PlatformTag)
    (ht : t ≠ PlatformTag.unknown) :
    mapGet (r30Users db now) (tagStr t)
      = r30Count db (now - 30 * msPerDay) (30 * msPerDay) t := by
  rw [r30Users]
  by_cases hc : r30Count db (now - 30 * msPerDay) (30 * msPerDay) t = 0
  · rw [foldRows_get_of_not_mem t (legacyRows db (now - 30 * msPerDay) (30 * msPerDay))
      (rowsNotMemFst (r30Count db (now - 30 * msPerDay) (30 * msPerDay)) t hc), hc]
    rfl
  · exact foldRows_get_of_mem t _ ht _
      (rowsNodup (r30Count db (now - 30 * msPerDay) (30 * msPerDay)))
      (rowsMem (r30Count db (now - 30 * msPerDay) (30 * msPerDay)) t hc) []

theorem r30_all_eq (db : DB) (now : Int) :
    mapGet (r30Users db now) "all"
      = (r30Keys db (now - 30 * msPerDay) (30 * msPerDay)).length := by
  rw [r30Users, foldRows_all]
  show 0 + _ = _
  rw [Nat.zero_add, legacyRows,
    rowsSumSnd (r30Count db (now - 30 * msPerDay) (30 * msPerDay))]
  exact countP_partition (r30Keys db (now - 30 * msPerDay) (30 * msPerDay))

theorem r30_no_unknown (db : DB) (now : Int) :
    mapHasKey (r30Users db now) "unknown" = false := by
  have hmem : "unknown" ∉ mapKeys (r30Users db now) := by
    rw [r30Users]
    refine foldRows_no_new_key "unknown" (by decide) _ [] (by simp [mapKeys]) ?_
    intro p hp hne hh
    exact hne (tagStr_inj hh)
  cases c : mapHasKey (r30Users db now) "unknown"
  · rfl
  · exact absurd ((mapHasKey_iff _ _).mp c) hmem

theorem insertVisits_append : ∀ (c t : List Visit),
    ∃ r, insertVisits t c = t ++ r ∧ ∀ x ∈ r, x ∈ c := by
  intro c
  induction c with
  | nil => intro t; exact ⟨[], by simp [insertVisits]⟩
  | cons c0 rest ih =>
    intro t
    by_cases h : t.any (fun v => decide (visitKey v = visitKey c0)) = true
    · rcases ih t with ⟨r, hr, hsub⟩
      refine ⟨r, ?_, fun x hx => List.mem_cons_of_mem c0 (hsub x hx)⟩
      rw [show insertVisits t (c0 :: rest) = insertVisits t rest from by
        simp [insertVisits, h]]
      exact hr
    · rcases ih (t ++ [c0]) with ⟨r, hr, hsub⟩
      refine ⟨c0 :: r, ?_, ?_⟩
      · rw [show insertVisits t (c0 :: rest) = insertVisits (t ++ [c0]) rest from by
          simp [insertVisits, h]]
        rw [hr, List.append_assoc]
        rfl
      · intro x hx
        rcases List.mem_cons.mp hx with h1 | h1
        · exact h1 ▸ List.mem_cons_self c0 rest
        · exact List.mem_cons_of_mem c0 (hsub x h1)

theorem mem_insertVisits (t c : List Visit) (v : Visit)
    (h : v ∈ insertVisits t c) : v ∈ t ∨ v ∈ c := by
  rcases insertVisits_append c t with ⟨r, hr, hsub⟩
  rcases List.mem_append.mp (hr ▸ h) with h1 | h1
  · exact Or.inl h1
  · exact Or.inr (hsub v h1)

theorem anyKey_insertVisits_mono (t c : List Visit) (k : String × String × Int)
    (h : t.any (fun v => decide (visitKey v = k)) = true) :
    (insertVisits t c).any (fun v => decide (visitKey v = k)) = true := by
  rcases insertVisits_append c t with ⟨r, hr, _⟩
  rw [hr, List.any_append, h, Bool.true_or]

theorem anyKey_after_insert : ∀ (c t : List Visit), ∀ x ∈ c,
    (insertVisits t c).any (fun v => decide (visitKey v = visitKey x)) = true := by
  intro c
  induction c with
  | nil => intro t x hx; simp at hx
  | cons c0 rest ih =>
    intro t x hx
    rcases List.mem_cons.mp hx with h1 | h1
    · subst h1
      by_cases h : t.any (fun v => decide (visitKey v = visitKey x)) = true
      · rw [show insertVisits t (x :: rest) = insertVisits t rest from by
          simp [insertVisits, h]]
        exact anyKey_insertVisits_mono t rest (visitKey x) h
      · rw [show insertVisits t (x :: rest) = insertVisits (t ++ [x]) rest from by
          simp [insertVisits, h]]
        refine anyKey_insertVisits_mono (t ++ [x]) rest (visitKey x) ?_
        rw [List.any_append]
        simp
    · by_cases h : t.any (fun v => decide (visitKey v = visitKey c0)) = true
      · rw [show insertVisits t (c0 :: rest) = insertVisits t rest from by
          simp [insertVisits, h]]
        exact ih t x h1
      · rw [show insertVisits t (c0 :: rest) = insertVisits (t ++ [c0]) rest from by
          simp [insertVisits, h]]
        exact ih (t ++ [c0]) x h1

theorem insertVisits_of_all_present : ∀ (c t : List Visit),
    (∀ x ∈ c, t.any (fun v => decide (visitKey v = visitKey x)) = true) →
    insertVisits t c = t := by
  intro c
  induction c with
  | nil => intro t _; rfl
  | cons c0 rest ih =>
    intro t hall
    rw [show insertVisits t (c0 :: rest) = insertVisits t rest from by
      simp [insertVisits, hall c0 (List.mem_cons_self c0 rest)]]
    exact ih t (fun x hx => hall x (List.mem_cons_of_mem c0 hx))

theorem insertVisits_idem (t c : List Visit) :
    insertVisits (insertVisits t c) c = insertVisits t c :=
  insertVisits_of_all_present c (insertVisits t c) (anyKey_after_insert c t)

theorem insertVisits_nodup_keys : ∀ (c t : List Visit),
    (t.map visitKey).Nodup → ((insertVisits t c).map visitKey).Nodup := by
  intro c
  induction c with
  | nil => intro t h; exact h
  | cons c0 rest ih =>
    intro t h
    by_cases hp : t.any (fun v => decide (visitKey v = visitKey c0)) = true
    · rw [show insertVisits t (c0 :: rest) = insertVisits t rest from by
        simp [insertVisits, hp]]
      exact ih t h
    · rw [show insertVisits t (c0 :: rest) = insertVisits (t ++ [c0]) rest from by
        simp [insertVisits, hp]]
      refine ih (t ++ [c0]) ?_
      rw [List.map_append, List.nodup_append]
      refine ⟨h, by simp, ?_⟩
      intro k hk hk2
      have hkc : k = visitKey c0 := by simpa using hk2
      rcases List.mem_map.mp hk with ⟨v, hv, hvk⟩
      have hdec : (decide (visitKey v = visitKey c0)) = true := by
        rw [hvk, hkc]
        simp
      exact hp (List.any_eq_true.mpr ⟨v, hv, hdec⟩)

theorem findVisit_insertVisits (t c : List Visit) (k : String × String × Int)
    (v : Visit) (h : findVisit t k = some v) :
    findVisit (insertVisits t c) k = some v := by
  rcases insertVisits_append c t with ⟨r, hr, _⟩
  rw [findVisit, hr, List.find?_append]
  rw [findVisit] at h
  rw [h]
  rfl

theorem candidates_timestamp (db : DB) (ts lo hi : Int) (v : Visit)
    (h : v ∈ dailyVisitCandidates db ts lo hi) : v.timestamp = ts := by
  rcases List.mem_map.mp h with ⟨k, _, rfl⟩
  rfl

theorem candidates_empty_window (db : DB) (ts lo hi : Int)
    (h : ∀ d ∈ db.devices, ¬ (lo ≤ d.lastSeenTs ∧ d.lastSeenTs < hi)) :
    dailyVisitCandidates db ts lo hi = [] := by
  rw [dailyVisitCandidates]
  rw [show ((db.devices.map (fun u => (u.localpart, u.deviceId))).dedup).filter
        (fun k =>
          db.devices.any (fun d =>
            decide (d.localpart = k.1 ∧ lo ≤ d.lastSeenTs ∧ d.lastSeenTs < hi)) &&
          db.accounts.any (fun a =>
            decide (a.localpart = k.1 ∧ (a.accountType = 1 ∨ a.accountType = 3))))
      = [] from ?_]
  · rfl
  · rw [List.filter_eq_nil_iff]
    intro k _ hc
    have hany : db.devices.any (fun d =>
        decide (d.localpart = k.1 ∧ lo ≤ d.lastSeenTs ∧ d.lastSeenTs < hi)) = false := by
      rw [List.any_eq_false]
      intro d hd
      simp only [decide_eq_true_eq, not_and]
      intro _ h1 h2
      exact h d hd ⟨h1, h2⟩
    have h1 : (db.devices.any (fun d =>
        decide (d.localpart = k.1 ∧ lo ≤ d.lastSeenTs ∧ d.lastSeenTs < hi))) = true :=
      ((Bool.and_eq_true _ _).mp hc).1
    rw [hany] at h1
    exact Bool.false_ne_true h1

/-! ## Claim theorems -/

/-- C1: the claim says a `(userId, platformTag)` group of `r30UsersV2` is
counted exactly when the gap between its most and least recent facts exceeds
30 days.  On `exDbV2` (two facts of one user, tag web, at `now - 45d` and
`now - 10d`, gap 35 days) the group exists in the window, its span does
exceed a 30-day duration, yet the HAVING comparison — whose right-hand side
is the absolute timestamp `now - 30d`, as passed by the Go code — rejects
it, so the result stays all zero instead of counting the user in the web
bucket. -/
theorem r30UsersV2_gap_threshold_bug :
    v2GroupsAll exDbV2 (exNow - 60 * msPerDay) (exNow + msPerDay)
      = [("alice", PlatformTag.web)] ∧
    spanGT (v2TsOf exDbV2 (exNow - 60 * msPerDay) (exNow + msPerDay)
      ("alice", PlatformTag.web)) (30 * msPerDay) = true ∧
    v2Groups exDbV2 (exNow - 60 * msPerDay) (exNow + msPerDay)
      (exNow - 30 * msPerDay) = [] ∧
    mapGet (r30UsersV2 exDbV2 exNow) "web" = 0 ∧
    mapGet (r30UsersV2 exDbV2 exNow) "all" = 0 := by
  decide

/-- C2 counterexample: the claim says any casing of "android" classifies as
android under the Legacy classifier; the SQL LIKE patterns are case
sensitive, so the all-caps identifier classifies as unknown. -/
theorem classifyLegacy_not_case_insensitive_cex :
    classifyLegacy "ANDROID" = PlatformTag.unknown ∧
    classifyLegacy "Android" = PlatformTag.android := by
  decide

/-- C2 (amended): the Legacy classifier matches its keywords CASE
SENSITIVELY, first match wins: a client identifier containing the exact
substring "Android" yields android; otherwise containing "iOS" yields ios;
otherwise containing "Electron" yields electron; otherwise containing
"Mozilla" or "Gecko" yields web; anything else yields unknown. -/
theorem classifyLegacy_case_sensitive_dispatch (s : String) :
    (csContains s "Android" → classifyLegacy s = PlatformTag.android) ∧
    (¬ csContains s "Android" → csContains s "iOS" →
      classifyLegacy s = PlatformTag.ios) ∧
    (¬ csContains s "Android" → ¬ csContains s "iOS" → csContains s "Electron" →
      classifyLegacy s = PlatformTag.electron) ∧
    (¬ csContains s "Android" → ¬ csContains s "iOS" → ¬ csContains s "Electron" →
      (csContains s "Mozilla" ∨ csContains s "Gecko") →
      classifyLegacy s = PlatformTag.web) ∧
    (¬ csContains s "Android" → ¬ csContains s "iOS" → ¬ csContains s "Electron" →
      ¬ csContains s "Mozilla" → ¬ csContains s "Gecko" →
      classifyLegacy s = PlatformTag.unknown) := by
  refine ⟨?_, ?_, ?_, ?_, ?_⟩
  · intro h
    simp [classifyLegacy, likeSub_true_of s "Android" h]
  · intro hn h
    simp [classifyLegacy, likeSub_false_of s "Android" hn, likeSub_true_of s "iOS" h]
  · intro hn1 hn2 h
    simp [classifyLegacy, likeSub_false_of s "Android" hn1,
      likeSub_false_of s "iOS" hn2, likeSub_true_of s "Electron" h]
  · intro hn1 hn2 hn3 h
    rcases h with h | h
    · simp [classifyLegacy, likeSub_false_of s "Android" hn1,
        likeSub_false_of s "iOS" hn2, likeSub_false_of s "Electron" hn3,
        likeSub_true_of s "Mozilla" h]
    · by_cases hm : likeSub s "Mozilla" = true
      · simp [classifyLegacy, likeSub_false_of s "Android" hn1,
          likeSub_false_of s "iOS" hn2, likeSub_false_of s "Electron" hn3, hm]
      · simp [classifyLegacy, likeSub_false_of s "Android" hn1,
          likeSub_false_of s "iOS" hn2, likeSub_false_of s "Electron" hn3,
          hm, likeSub_true_of s "Gecko" h]
  · intro hn1 hn2 hn3 hn4 hn5
    simp [classifyLegacy, likeSub_false_of s "Android" hn1,
      likeSub_false_of s "iOS" hn2, likeSub_false_of s "Electron" hn3,
      likeSub_false_of s "Mozilla" hn4, likeSub_false_of s "Gecko" hn5]

/-- Witness for the C2 theorem at the concrete identifier "Mozilla/5.0". -/
theorem classifyLegacy_case_sensitive_dispatch_witness :
    classifyLegacy "Mozilla/5.0" = PlatformTag.web :=
  (classifyLegacy_case_sensitive_dispatch "Mozilla/5.0").2.2.2.1
    (fun h => absurd ((likeSub_iff "Mozilla/5.0" "Android").mpr h) (by decide))
    (fun h => absurd ((likeSub_iff "Mozilla/5.0" "iOS").mpr h) (by decide))
    (fun h => absurd ((likeSub_iff "Mozilla/5.0" "Electron").mpr h) (by decide))
    (Or.inl ((likeSub_iff "Mozilla/5.0" "Mozilla").mp (by decide)))

/-- C3 counterexample: the claim says each qualifying user contributes
exactly 1 to "all" and appears under at most one platform key; `cDb` holds a
single qualifying account with devices classifying to android and web, and
the result counts it twice in "all" and under both platform keys. -/
theorem r30Users_multi_platform_cex :
    cDb.accounts.length = 1 ∧
    mapGet (r30Users cDb exNow) "all" = 2 ∧
    mapHasKey (r30Users cDb exNow) "android" = true ∧
    mapHasKey (r30Users cDb exNow) "web" = true := by
  decide

/-- C3 (amended): `r30Users` groups by `(localpart, platform, created_ts)`,
not by the platform of the most recent fact only: the "all" bucket counts
the distinct qualifying `(user, platform)` groups — so a user with
qualifying devices on several platforms is counted once per platform — and
every qualifying `(account, device)` pair with a non-unknown platform makes
that platform key appear with a positive count. -/
theorem r30Users_counts_user_platform_groups (db : DB) (now : Int)
    (a : Account) (d : Device) :
    mapGet (r30Users db now) "all"
      = (r30Keys db (now - 30 * msPerDay) (30 * msPerDay)).length ∧
    (a ∈ db.accounts → d ∈ db.devices → d.localpart = a.localpart →
      a.accountType ≠ 4 → a.createdTs < now - 30 * msPerDay →
      now - 30 * msPerDay < d.lastSeenTs →
      30 * msPerDay < d.lastSeenTs - a.createdTs →
      classifyLegacy d.userAgent ≠ PlatformTag.unknown →
      1 ≤ mapGet (r30Users db now) (tagStr (classifyLegacy d.userAgent))) := by
  refine ⟨r30_all_eq db now, ?_⟩
  intro ha hd hlp h4 hc hl hdiff hu
  rw [r30_get_eq db now _ hu]
  have hkey : (a.localpart, classifyLegacy d.userAgent, a.createdTs) ∈
      r30Keys db (now - 30 * msPerDay) (30 * msPerDay) := by
    rw [r30Keys, List.mem_dedup, List.mem_flatMap]
    refine ⟨a, ha, ?_⟩
    rw [List.mem_filterMap]
    exact ⟨d, hd, by rw [if_pos ⟨hlp, h4, hc, hl, hdiff⟩]⟩
  have hpos : 0 < r30Count db (now - 30 * msPerDay) (30 * msPerDay)
      (classifyLegacy d.userAgent) :=
    List.countP_pos_iff.mpr ⟨_, hkey, by simp⟩
  omega

/-- Witness for the C3 theorem at the concrete database `cDb`. -/
theorem r30Users_counts_user_platform_groups_witness :
    1 ≤ mapGet (r30Users cDb exNow) (tagStr (classifyLegacy "Android")) :=
  (r30Users_counts_user_platform_groups cDb exNow
      ⟨"bob", exNow - 40 * msPerDay, 1⟩ ⟨"bob", "d1", exNow - 5 * msPerDay, "Android"⟩).2
    (by decide) (by decide) rfl (by decide) (by decide) (by decide) (by decide)
    (by decide)

/-- C4: `userStatistics` issues its sub-queries in the fixed order all-users,
daily-active, monthly-active, R30, R30V2, non-bridged, registration
breakdown, engine version; at the first failure it stops, returns that
error, executes nothing further, and the returned statistics hold exactly
the computed values of the sub-queries that completed before the failure.
For a failing map-valued sub-query both failure shapes of the Go helper
are covered: a query/scan error stores the nil map, a rows-iteration error
stores the non-nil partial map returned alongside the error. -/
theorem userStatistics_sequential_early_stop (o : StatsOracle) :
    (∀ e, o.allUsersQ = Except.error e →
      userStatistics o = (initStats, initEngine, some e, [SubQ.allUsersQ])) ∧
    (∀ v1 e, o.allUsersQ = Except.ok v1 → o.dailyUsersQ = Except.error e →
      userStatistics o = (⟨v1, 0, 0, some [], some seed5, 0, some []⟩, initEngine,
        some e, [SubQ.allUsersQ, SubQ.dailyUsersQ])) ∧
    (∀ v1 v2 e, o.allUsersQ = Except.ok v1 → o.dailyUsersQ = Except.ok v2 →
      o.monthlyUsersQ = Except.error e →
      userStatistics o = (⟨v1, v2, 0, some [], some seed5, 0, some []⟩, initEngine,
        some e, [SubQ.allUsersQ, SubQ.dailyUsersQ, SubQ.monthlyUsersQ])) ∧
    ((∀ v1 v2 v3 e, o.allUsersQ = Except.ok v1 → o.dailyUsersQ = Except.ok v2 →
      o.monthlyUsersQ = Except.ok v3 → o.r30Q = MapQResult.failNil e →
      userStatistics o = (⟨v1, v2, v3, none, some seed5, 0, some []⟩, initEngine,
        some e, [SubQ.allUsersQ, SubQ.dailyUsersQ, SubQ.monthlyUsersQ, SubQ.r30Q])) ∧
     (∀ v1 v2 v3 m e, o.allUsersQ = Except.ok v1 → o.dailyUsersQ = Except.ok v2 →
      o.monthlyUsersQ = Except.ok v3 → o.r30Q = MapQResult.failRows m e →
      userStatistics o = (⟨v1, v2, v3, some m, some seed5, 0, some []⟩, initEngine,
        some e, [SubQ.allUsersQ, SubQ.dailyUsersQ, SubQ.monthlyUsersQ, SubQ.r30Q]))) ∧
    ((∀ v1 v2 v3 m4 e, o.allUsersQ = Except.ok v1 → o.dailyUsersQ = Except.ok v2 →
      o.monthlyUsersQ = Except.ok v3 → o.r30Q = MapQResult.ok m4 →
      o.r30V2Q = MapQResult.failNil e →
      userStatistics o = (⟨v1, v2, v3, some m4, none, 0, some []⟩, initEngine,
        some e, [SubQ.allUsersQ, SubQ.dailyUsersQ, SubQ.monthlyUsersQ, SubQ.r30Q,
          SubQ.r30V2Q])) ∧
     (∀ v1 v2 v3 m4 m e, o.allUsersQ = Except.ok v1 → o.dailyUsersQ = Except.ok v2 →
      o.monthlyUsersQ = Except.ok v3 → o.r30Q = MapQResult.ok m4 →
      o.r30V2Q = MapQResult.failRows m e →
      userStatistics o = (⟨v1, v2, v3, some m4, some m, 0, some []⟩, initEngine,
        some e, [SubQ.allUsersQ, SubQ.dailyUsersQ, SubQ.monthlyUsersQ, SubQ.r30Q,
          SubQ.r30V2Q]))) ∧
    (∀ v1 v2 v3 m4 m5 e, o.allUsersQ = Except.ok v1 → o.dailyUsersQ = Except.ok v2 →
      o.monthlyUsersQ = Except.ok v3 → o.r30Q = MapQResult.ok m4 →
      o.r30V2Q = MapQResult.ok m5 → o.nonBridgedQ = Except.error e →
      userStatistics o = (⟨v1, v2, v3, some m4, some m5, 0, some []⟩, initEngine,
        some e, [SubQ.allUsersQ, SubQ.dailyUsersQ, SubQ.monthlyUsersQ, SubQ.r30Q,
          SubQ.r30V2Q, SubQ.nonBridgedQ])) ∧
    ((∀ v1 v2 v3 m4 m5 v6 e, o.allUsersQ = Except.ok v1 →
      o.dailyUsersQ = Except.ok v2 → o.monthlyUsersQ = Except.ok v3 →
      o.r30Q = MapQResult.ok m4 → o.r30V2Q = MapQResult.ok m5 →
      o.nonBridgedQ = Except.ok v6 → o.registeredQ = MapQResult.failNil e →
      userStatistics o = (⟨v1, v2, v3, some m4, some m5, v6, none⟩, initEngine,
        some e, [SubQ.allUsersQ, SubQ.dailyUsersQ, SubQ.monthlyUsersQ, SubQ.r30Q,
          SubQ.r30V2Q, SubQ.nonBridgedQ, SubQ.registeredQ])) ∧
     (∀ v1 v2 v3 m4 m5 v6 m e, o.allUsersQ = Except.ok v1 →
      o.dailyUsersQ = Except.ok v2 → o.monthlyUsersQ = Except.ok v3 →
      o.r30Q = MapQResult.ok m4 → o.r30V2Q = MapQResult.ok m5 →
      o.nonBridgedQ = Except.ok v6 → o.registeredQ = MapQResult.failRows m e →
      userStatistics o = (⟨v1, v2, v3, some m4, some m5, v6, some m⟩, initEngine,
        some e, [SubQ.allUsersQ, SubQ.dailyUsersQ, SubQ.monthlyUsersQ, SubQ.r30Q,
          SubQ.r30V2Q, SubQ.nonBridgedQ, SubQ.registeredQ]))) ∧
    (∀ v1 v2 v3 m4 m5 v6 m7 e, o.allUsersQ = Except.ok v1 →
      o.dailyUsersQ = Except.ok v2 → o.monthlyUsersQ = Except.ok v3 →
      o.r30Q = MapQResult.ok m4 → o.r30V2Q = MapQResult.ok m5 →
      o.nonBridgedQ = Except.ok v6 → o.registeredQ = MapQResult.ok m7 →
      o.versionQ = Except.error e →
      userStatistics o = (⟨v1, v2, v3, some m4, some m5, v6, some m7⟩, initEngine,
        some e, subQOrder)) ∧
    (∀ v1 v2 v3 m4 m5 v6 m7 v8, o.allUsersQ = Except.ok v1 →
      o.dailyUsersQ = Except.ok v2 → o.monthlyUsersQ = Except.ok v3 →
      o.r30Q = MapQResult.ok m4 → o.r30V2Q = MapQResult.ok m5 →
      o.nonBridgedQ = Except.ok v6 → o.registeredQ = MapQResult.ok m7 →
      o.versionQ = Except.ok v8 →
      userStatistics o = (⟨v1, v2, v3, some m4, some m5, v6, some m7⟩,
        ⟨"Postgres", v8⟩, none, subQOrder)) := by
  refine ⟨?_, ?_, ?_, ⟨?_, ?_⟩, ⟨?_, ?_⟩, ?_, ⟨?_, ?_⟩, ?_, ?_⟩
  · intro e h1
    simp [userStatistics, h1, initStats]
  · intro v1 e h1 h2
    simp [userStatistics, h1, h2, initStats]
  · intro v1 v2 e h1 h2 h3
    simp [userStatistics, h1, h2, h3, initStats]
  · intro v1 v2 v3 e h1 h2 h3 h4
    simp [userStatistics, h1, h2, h3, h4, initStats]
  · intro v1 v2 v3 m e h1 h2 h3 h4
    simp [userStatistics, h1, h2, h3, h4, initStats]
  · intro v1 v2 v3 m4 e h1 h2 h3 h4 h5
    simp [userStatistics, h1, h2, h3, h4, h5, initStats]
  · intro v1 v2 v3 m4 m e h1 h2 h3 h4 h5
    simp [userStatistics, h1, h2, h3, h4, h5, initStats]
  · intro v1 v2 v3 m4 m5 e h1 h2 h3 h4 h5 h6
    simp [userStatistics, h1, h2, h3, h4, h5, h6, initStats]
  · intro v1 v2 v3 m4 m5 v6 e h1 h2 h3 h4 h5 h6 h7
    simp [userStatistics, h1, h2, h3, h4, h5, h6, h7, initStats, subQOrder]
  · intro v1 v2 v3 m4 m5 v6 m e h1 h2 h3 h4 h5 h6 h7
    simp [userStatistics, h1, h2, h3, h4, h5, h6, h7, initStats, subQOrder]
  · intro v1 v2 v3 m4 m5 v6 m7 e h1 h2 h3 h4 h5 h6 h7 h8
    simp [userStatistics, h1, h2, h3, h4, h5, h6, h7, h8, initStats, subQOrder]
  · intro v1 v2 v3 m4 m5 v6 m7 v8 h1 h2 h3 h4 h5 h6 h7 h8
    simp [userStatistics, h1, h2, h3, h4, h5, h6, h7, h8, initStats, subQOrder]

/-- Witness for the C4 theorem: the all-success oracle `oAllOk`. -/
theorem userStatistics_sequential_early_stop_witness :
    userStatistics oAllOk = (⟨11, 4, 9, some [("all", 2)], some seed5, 10,
      some [("native", 1)]⟩, ⟨"Postgres", "15.1"⟩, none, subQOrder) :=
  (userStatistics_sequential_early_stop oAllOk).2.2.2.2.2.2.2.2 11 4 9
    [("all", 2)] seed5 10 [("native", 1)] "15.1" rfl rfl rfl rfl rfl rfl rfl rfl

/-- C5: `updateUserDailyVisits` sets the watermark to the current time
exactly when the insert statement succeeds; on failure the watermark and
the visit table are left exactly as they were. -/
theorem updateUserDailyVisits_watermark (db : DB) (lu now : Int) (ok : Bool) :
    (ok = true → (updateUserDailyVisits db lu now ok).1.1 = now ∧
      (updateUserDailyVisits db lu now ok).2 = false) ∧
    (ok = false → (updateUserDailyVisits db lu now ok).1.1 = lu ∧
      (updateUserDailyVisits db lu now ok).1.2 = db.visits ∧
      (updateUserDailyVisits db lu now ok).2 = true) := by
  cases ok <;> simp [updateUserDailyVisits]

/-- Witness for the C5 theorem: a failing run at the concrete inputs. -/
theorem updateUserDailyVisits_watermark_witness :
    (updateUserDailyVisits mDb mLastUpdate mNow false).1.1 = mLastUpdate ∧
    (updateUserDailyVisits mDb mLastUpdate mNow false).1.2 = mDb.visits ∧
    (updateUserDailyVisits mDb mLastUpdate mNow false).2 = true :=
  (updateUserDailyVisits_watermark mDb mLastUpdate mNow false).2 rfl

/-- C6: when the truncated current day start lies strictly after the stored
watermark, every fact written by the run is stamped with the day start minus
one day (the previous day); otherwise the current day start is used. -/
theorem updateUserDailyVisits_day_stamp (db : DB) (lu now : Int) (v : Visit) :
    (lu < truncDay now → v ∈ (updateUserDailyVisits db lu now true).1.2 →
      v ∉ db.visits → v.timestamp = truncDay now - msPerDay) ∧
    (¬ lu < truncDay now → v ∈ (updateUserDailyVisits db lu now true).1.2 →
      v ∉ db.visits → v.timestamp = truncDay now) := by
  have hres : (updateUserDailyVisits db lu now true).1.2 =
      insertVisits db.visits (dailyVisitCandidates db
        (if lu < truncDay now then truncDay now - msPerDay else truncDay now)
        lu now) := rfl
  constructor
  · intro hlt hmem hnot
    rw [hres, if_pos hlt] at hmem
    rcases mem_insertVisits _ _ v hmem with h1 | h1
    · exact absurd h1 hnot
    · exact candidates_timestamp db _ lu now v h1
  · intro hge hmem hnot
    rw [hres, if_neg hge] at hmem
    rcases mem_insertVisits _ _ v hmem with h1 | h1
    · exact absurd h1 hnot
    · exact candidates_timestamp db _ lu now v h1

/-- Witness for the C6 theorem: the day-6 run over `mDb` dates its fact to
day 5. -/
theorem updateUserDailyVisits_day_stamp_witness :
    Visit.timestamp mVisit = truncDay mNow - msPerDay :=
  (updateUserDailyVisits_day_stamp mDb mLastUpdate mNow mVisit).1 (by decide)
    (by decide) (by decide)

/-- C7: the materialization insert never creates a second fact for an
existing `(localpart, device_id, timestamp)` key: key-uniqueness of the
table is preserved, re-running the same insert adds nothing, an existing
fact keeps winning lookups for its key (first-write-wins), and a window
with no device activity yields no candidate rows at all. -/
theorem insertVisits_idempotent_unique (t c : List Visit) (db : DB)
    (ts lo hi : Int) (k : String × String × Int) (v : Visit) :
    ((t.map visitKey).Nodup → ((insertVisits t c).map visitKey).Nodup) ∧
    insertVisits (insertVisits t c) c = insertVisits t c ∧
    (findVisit t k = some v → findVisit (insertVisits t c) k = some v) ∧
    ((∀ d ∈ db.devices, ¬ (lo ≤ d.lastSeenTs ∧ d.lastSeenTs < hi)) →
      insertVisits t (dailyVisitCandidates db ts lo hi) = t) := by
  refine ⟨insertVisits_nodup_keys c t, insertVisits_idem t c,
    findVisit_insertVisits t c k v, ?_⟩
  intro h
  rw [candidates_empty_window db ts lo hi h]
  rfl

/-- Witness for the C7 theorem at the concrete table `[mVisit]` and the
candidate rows `mCands`. -/
theorem insertVisits_idempotent_unique_witness :
    ((insertVisits [mVisit] mCands).map visitKey).Nodup ∧
    findVisit (insertVisits [mVisit] mCands) (visitKey mVisit) = some mVisit ∧
    insertVisits [mVisit] (dailyVisitCandidates mDb (5 * msPerDay) 0 0) = [mVisit] :=
  ⟨(insertVisits_idempotent_unique [mVisit] mCands mDb (5 * msPerDay) 0 0
      (visitKey mVisit) mVisit).1 (by decide),
   (insertVisits_idempotent_unique [mVisit] mCands mDb (5 * msPerDay) 0 0
      (visitKey mVisit) mVisit).2.2.1 (by decide),
   (insertVisits_idempotent_unique [mVisit] mCands mDb (5 * msPerDay) 0 0
      (visitKey mVisit) mVisit).2.2.2 (by decide)⟩

/-- C8: the map produced by `r30UsersV2` carries exactly the five keys ios,
android, web, electron and all — no other key ever appears (unknown rows
touch only "all") — and when no group survives the HAVING clause the result
is exactly the all-zero seed map. -/
theorem r30UsersV2_fixed_five_keys (db : DB) (now : Int) :
    (∀ k : String, mapHasKey (r30UsersV2 db now) k = true ↔
      k ∈ ["ios", "android", "web", "electron", "all"]) ∧
    (v2Groups db (now - 60 * msPerDay) (now + msPerDay) (now - 30 * msPerDay) = [] →
      r30UsersV2 db now = seed5) := by
  constructor
  · intro k
    have hkeys : mapKeys (r30UsersV2 db now) = mapKeys seed5 := by
      rw [r30UsersV2]
      refine foldRows_keys_preserved _ seed5 (by decide) ?_
      intro p hp hne
      have hmem : p.1 ∈ tagOrder :=
        rowsFstMem (v2Count db (now - 60 * msPerDay) (now + msPerDay)
          (now - 30 * msPerDay)) p hp
      rcases p with ⟨t, c⟩
      cases t
      · exact (by decide : tagStr PlatformTag.android ∈ mapKeys seed5)
      · exact (by decide : tagStr PlatformTag.ios ∈ mapKeys seed5)
      · exact (by decide : tagStr PlatformTag.electron ∈ mapKeys seed5)
      · exact (by decide : tagStr PlatformTag.web ∈ mapKeys seed5)
      · exact absurd rfl hne
    rw [mapHasKey_iff, hkeys]
    exact Iff.rfl
  · intro hg
    have hc : ∀ t, v2Count db (now - 60 * msPerDay) (now + msPerDay)
        (now - 30 * msPerDay) t = 0 := by
      intro t
      rw [v2Count, hg]
      rfl
    rw [r30UsersV2, v2Rows]
    rw [show tagOrder.filter (fun t => decide (v2Count db (now - 60 * msPerDay)
        (now + msPerDay) (now - 30 * msPerDay) t ≠ 0)) = [] from ?_]
    · rfl
    · rw [List.filter_eq_nil_iff]
      intro t _
      simp [hc t]

/-- Witness for the C8 theorem at the concrete database `exDbV2`. -/
theorem r30UsersV2_fixed_five_keys_witness :
    mapHasKey (r30UsersV2 exDbV2 exNow) "ios" = true ∧
    r30UsersV2 exDbV2 exNow = seed5 :=
  ⟨((r30UsersV2_fixed_five_keys exDbV2 exNow).1 "ios").mpr (by decide),
   (r30UsersV2_fixed_five_keys exDbV2 exNow).2 (by decide)⟩

/-- C9: in the `r30Users` result no "unknown" key ever appears; every
non-unknown platform group is emitted under its own key with its group
count, and the "all" entry is the sum of every group count including the
unknown ones. -/
theorem r30Users_unknown_only_in_all (db : DB) (now : Int) :
    mapHasKey (r30Users db now) "unknown" = false ∧
    (∀ t : PlatformTag, t ≠ PlatformTag.unknown →
      mapGet (r30Users db now) (tagStr t)
        = r30Count db (now - 30 * msPerDay) (30 * msPerDay) t) ∧
    mapGet (r30Users db now) "all"
      = (tagOrder.map (r30Count db (now - 30 * msPerDay) (30 * msPerDay))).sum := by
  refine ⟨r30_no_unknown db now, fun t ht => r30_get_eq db now t ht, ?_⟩
  rw [r30Users, foldRows_all]
  show 0 + _ = _
  rw [Nat.zero_add, legacyRows,
    rowsSumSnd (r30Count db (now - 30 * msPerDay) (30 * msPerDay))]

/-- Witness for the C9 theorem at the concrete database `cDb`. -/
theorem r30Users_unknown_only_in_all_witness :
    mapHasKey (r30Users cDb exNow) "unknown" = false ∧
    mapGet (r30Users cDb exNow) (tagStr PlatformTag.android)
      = r30Count cDb (exNow - 30 * msPerDay) (30 * msPerDay) PlatformTag.android :=
  ⟨(r30Users_unknown_only_in_all cDb exNow).1,
   (r30Users_unknown_only_in_all cDb exNow).2.1 PlatformTag.android (by decide)⟩

/-- C10 counterexample: the claim says every early return leaves
`R30UsersV2` a non-nil five-key map; when the R30V2 sub-query fails at its
`QueryContext` or `Scan` call, the Go assignment stores the nil map that
`r30UsersV2` returned alongside its error, so the field of the returned
statistics is nil. -/
theorem userStatistics_nil_r30v2_cex :
    (userStatistics oV2Fails).1.r30UsersV2 = none ∧
    (userStatistics oV2Fails).2.2.1 = some "boom" :=
  ⟨rfl, rfl⟩

/-- C10 (amended): on an early return the fields of sub-queries that never
executed keep their non-nil initial values — `R30UsersV2` the five-key
all-zero seed, `R30Users` and `RegisteredUsersByType` empty maps, and the
engine descriptor Postgres with version "unknown" while the version query
never ran — but the map field of the failing sub-query itself is
overwritten with whatever map the helper returned alongside its error: the
nil map when the helper failed at its query or row scan, the non-nil
(possibly partially filled) map when it failed at the rows-iteration
check. -/
theorem userStatistics_defaults_on_early_return (o : StatsOracle) :
    (SubQ.r30V2Q ∉ (userStatistics o).2.2.2 →
      (userStatistics o).1.r30UsersV2 = some seed5) ∧
    (SubQ.r30Q ∉ (userStatistics o).2.2.2 →
      (userStatistics o).1.r30Users = some []) ∧
    (SubQ.registeredQ ∉ (userStatistics o).2.2.2 →
      (userStatistics o).1.registeredUsersByType = some []) ∧
    (SubQ.versionQ ∉ (userStatistics o).2.2.2 →
      (userStatistics o).2.1 = initEngine) ∧
    (∀ e, o.r30V2Q = MapQResult.failNil e → SubQ.r30V2Q ∈ (userStatistics o).2.2.2 →
      (userStatistics o).1.r30UsersV2 = none) ∧
    (∀ m e, o.r30V2Q = MapQResult.failRows m e →
      SubQ.r30V2Q ∈ (userStatistics o).2.2.2 →
      (userStatistics o).1.r30UsersV2 = some m) := by
  obtain ⟨q1, q2, q3, q4, q5, q6, q7, q8⟩ := o
  cases q1 with
  | error e1 => refine ⟨?_, ?_, ?_, ?_, ?_, ?_⟩ <;> simp [userStatistics, initStats]
  | ok v1 =>
  cases q2 with
  | error e2 => refine ⟨?_, ?_, ?_, ?_, ?_, ?_⟩ <;> simp [userStatistics, initStats]
  | ok v2 =>
  cases q3 with
  | error e3 => refine ⟨?_, ?_, ?_, ?_, ?_, ?_⟩ <;> simp [userStatistics, initStats]
  | ok v3 =>
  cases q4 with
  | failNil e4 =>
      refine ⟨?_, ?_, ?_, ?_, ?_, ?_⟩ <;> simp [userStatistics, initStats]
  | failRows mr4 e4 =>
      refine ⟨?_, ?_, ?_, ?_, ?_, ?_⟩ <;> simp [userStatistics, initStats]
  | ok m4 =>
  cases q5 with
  | failNil e5 =>
      refine ⟨?_, ?_, ?_, ?_, ?_, ?_⟩ <;> simp [userStatistics, initStats]
  | failRows mr5 e5 =>
      refine ⟨?_, ?_, ?_, ?_, ?_, ?_⟩ <;> simp [userStatistics, initStats]
  | ok m5 =>
  cases q6 with
  | error e6 => refine ⟨?_, ?_, ?_, ?_, ?_, ?_⟩ <;> simp [userStatistics, initStats]
  | ok v6 =>
  cases q7 with
  | failNil e7 =>
      refine ⟨?_, ?_, ?_, ?_, ?_, ?_⟩ <;> simp [userStatistics, initStats, subQOrder]
  | failRows mr7 e7 =>
      refine ⟨?_, ?_, ?_, ?_, ?_, ?_⟩ <;> simp [userStatistics, initStats, subQOrder]
  | ok m7 =>
  cases q8 with
  | error e8 => refine ⟨?_, ?_, ?_, ?_, ?_, ?_⟩ <;>
      simp [userStatistics, initStats, subQOrder]
  | ok v8 => refine ⟨?_, ?_, ?_, ?_, ?_, ?_⟩ <;>
      simp [userStatistics, initStats, subQOrder]

/-- Witness for the C10 theorem at the oracle whose R30V2 step fails with
the nil-returning failure shape. -/
theorem userStatistics_defaults_on_early_return_witness :
    (userStatistics oV2Fails).2.1 = initEngine ∧
    (userStatistics oV2Fails).1.r30UsersV2 = none :=
  ⟨(userStatistics_defaults_on_early_return oV2Fails).2.2.2.1 (by decide),
   (userStatistics_defaults_on_early_return oV2Fails).2.2.2.2.1 "boom" rfl (by decide)⟩

end DendriteStats
